import Mathlib

/-!
Shallow embedding of the tennis-scheduler repository's scheduling and
token-lifecycle core, together with theorems checking the specification's
claims against it.

Times (both absolute instants and civil clock readings) are integers
counting seconds.  A Python `datetime` is a civil reading plus an optional
timezone; a timezone is modelled by the two functions `zoneinfo` exposes:
the UTC offset at an absolute instant (used by `astimezone`/`fromutc`) and
the UTC offset it assigns to a civil reading (used by `utcoffset`, fold 0).
-/

namespace TennisScheduler

/-- A timezone, as the offset data `zoneinfo.ZoneInfo` provides. -/
structure Zone where
  /-- UTC offset (seconds east) in force at an absolute instant. -/
  offsetAt : Int → Int
  /-- UTC offset assigned to a civil clock reading (fold 0). -/
  offsetOfCivil : Int → Int

/-- A Python `datetime`: civil clock reading in seconds, optional zone. -/
structure PyDateTime where
  civil : Int
  tz : Option Zone

/-- `dt.utcoffset()`: the zone's offset for the civil reading (0 if naive,
a case Python never exercises on the paths modelled here). -/
def utcoffset (dt : PyDateTime) : Int :=
  match dt.tz with
  | none => 0
  | some z => z.offsetOfCivil dt.civil

/-- The absolute instant an aware datetime denotes: civil minus offset. -/
def instantOf (dt : PyDateTime) : Int :=
  dt.civil - utcoffset dt

/-- `dt.astimezone(z)`: same absolute instant re-expressed in zone `z`. -/
def astimezone (dt : PyDateTime) (z : Zone) : PyDateTime :=
  { civil := instantOf dt + z.offsetAt (instantOf dt), tz := some z }

/-- The UTC zone: offset 0 everywhere. -/
def utcZone : Zone :=
  { offsetAt := fun _ => 0, offsetOfCivil := fun _ => 0 }

/-- `util.to_eastern`: naive datetimes get the Eastern zone attached via
`dt.replace(tzinfo=eastern)` (clock fields kept); aware datetimes are
converted with `dt.astimezone(eastern)`.  The Eastern zone is passed as a
parameter `E` since `ZoneInfo("America/New_York")` is an external table. -/
def to_eastern (E : Zone) (dt : PyDateTime) : PyDateTime :=
  match dt.tz with
  | none => { civil := dt.civil, tz := some E }
  | some _ => astimezone dt E

/-- A zone is coherent when the offset it assigns to the civil reading of
an instant is the offset in force at that instant; `zoneinfo` zones have
this on the outputs `astimezone` produces (fold disambiguation). -/
def Zone.Coherent (z : Zone) : Prop :=
  ∀ i : Int, z.offsetOfCivil (i + z.offsetAt i) = z.offsetAt i

/-- A fixed-offset zone (offset constant in both views). -/
def fixedZone (off : Int) : Zone :=
  { offsetAt := fun _ => off, offsetOfCivil := fun _ => off }

theorem fixedZone_coherent (off : Int) : (fixedZone off).Coherent :=
  fun _ => rfl

theorem utcZone_coherent : utcZone.Coherent :=
  fun _ => rfl

/-- C9: naive inputs have the Eastern zone attached with the clock fields
unchanged; aware inputs are converted to the same absolute instant
expressed in the Eastern zone (for any coherent Eastern offset table). -/
theorem to_eastern_spec (E : Zone) (hE : E.Coherent) (dt : PyDateTime) :
    (dt.tz = none → to_eastern E dt = { civil := dt.civil, tz := some E }) ∧
    (dt.tz ≠ none →
      instantOf (to_eastern E dt) = instantOf dt ∧ (to_eastern E dt).tz = some E) := by
  constructor
  · intro h
    simp [to_eastern, h]
  · intro h
    match hdt : dt.tz with
    | none => exact absurd hdt h
    | some z =>
      constructor
      · simp only [to_eastern, hdt, astimezone, instantOf, utcoffset, hE (dt.civil - z.offsetOfCivil dt.civil)]
        ring
      · simp [to_eastern, hdt, astimezone]

/-- Witness for `to_eastern_spec` at a concrete zone and datetimes. -/
theorem to_eastern_spec_witness :
    (to_eastern (fixedZone (-18000)) { civil := 3600, tz := none }
      = { civil := 3600, tz := some (fixedZone (-18000)) }) ∧
    instantOf (to_eastern (fixedZone (-18000)) { civil := 3600, tz := some utcZone })
      = instantOf { civil := 3600, tz := some utcZone } := by
  refine ⟨?_, ?_⟩
  · exact (to_eastern_spec (fixedZone (-18000)) (fixedZone_coherent (-18000))
      { civil := 3600, tz := none }).1 rfl
  · exact ((to_eastern_spec (fixedZone (-18000)) (fixedZone_coherent (-18000))
      { civil := 3600, tz := some utcZone }).2 (by simp)).1

/-!
## Data model: schedules, tokens, and the APScheduler job table

`models.Schedule` and `models.Token` rows, and an in-memory model of
APScheduler's job table.  Job identifiers mirror the id strings used in
the source (`booking_{id}`, `playwright_auth_{id}`, `token_refresh`,
`token_refresh_interval`, `token_refresh_expiry_protection`,
`token_refresh_retry`).
-/

/-- `models.ScheduleType`. -/
inductive ScheduleType
  | oneOff
  | recurring
  deriving DecidableEq, Repr

/-- A `models.Schedule` row. -/
structure Schedule where
  id : Nat
  type : ScheduleType
  desiredTime : PyDateTime
  rrule : Option String := none
  courtId : Option String := none
  status : String := "pending"
  triggerTime : PyDateTime
  duration : Int := 60

/-- A `models.Token` row; expiries are Unix timestamps, secrets are the
stored (encrypted) strings. -/
structure Token where
  id : Nat := 1
  access_token : String
  refresh_token : String
  access_expiry : Int
  refresh_expiry : Int
  session_state : String
  deriving DecidableEq, Repr

/-- The job id strings the source passes to APScheduler. -/
inductive JobId
  | playwrightAuth (sid : Nat)
  | booking (sid : Nat)
  | tokenRefresh
  | tokenRefreshInterval
  | tokenRefreshExpiryProtection
  | tokenRefreshRetry
  deriving DecidableEq, Repr

/-- The callable a job was armed with. -/
inductive JobFn
  | playwrightLoginWrapper
  | bookSlotWrapper
  | bookSlotDirect
  | autoRefreshToken
  deriving DecidableEq, Repr

/-- An APScheduler trigger: a one-shot date or a repeating interval. -/
inductive JobTrigger
  | date (runAt : Int)
  | interval (minutes : Int)
  deriving DecidableEq, Repr

/-- An armed APScheduler job. -/
structure Job where
  id : JobId
  func : JobFn
  trigger : JobTrigger
  deriving DecidableEq, Repr

/-- `scheduler.add_job`: with `replace_existing=False` (the default) a
duplicate id raises `ConflictingIdError` (modelled as `none`); otherwise
the job is appended. -/
def addJob (tbl : List Job) (j : Job) : Option (List Job) :=
  if tbl.any (fun o => o.id == j.id) then none
  else some (tbl ++ [j])

/-- `scheduler.add_job(..., replace_existing=True)`: a same-id job is
replaced in place, otherwise the job is appended. -/
def addJobReplace (tbl : List Job) (j : Job) : List Job :=
  if tbl.any (fun o => o.id == j.id) then
    tbl.map (fun o => if o.id == j.id then j else o)
  else tbl ++ [j]

/-- `try: scheduler.remove_job(id) except: pass` — remove the job if it
exists, silently do nothing otherwise. -/
def removeJobIfPresent (tbl : List Job) (i : JobId) : List Job :=
  if tbl.any (fun o => o.id == i) then tbl.filter (fun o => !(o.id == i))
  else tbl

/-!
## `auth.schedule_next_token_refresh` and the refresh cadence
-/

/-- `auth.schedule_next_token_refresh`: looks the token up (absent token
logs and returns), removes the legacy `token_refresh` job and the
`token_refresh_interval` job if present, arms a 20-minute interval
refresh, and — when `refresh_expiry - 30` is still in the future — arms
the `token_refresh_expiry_protection` date job at `refresh_expiry - 30`.
Both adds use `replace_existing=True`. -/
def schedule_next_token_refresh (tbl : List Job) (token : Option Token)
    (now : Int) : List Job :=
  match token with
  | none => tbl
  | some tok =>
    let t1 := removeJobIfPresent tbl JobId.tokenRefresh
    let t2 := removeJobIfPresent t1 JobId.tokenRefreshInterval
    let t3 := addJobReplace t2
      { id := JobId.tokenRefreshInterval, func := JobFn.autoRefreshToken,
        trigger := JobTrigger.interval 20 }
    let nextRefreshTime := tok.refresh_expiry - 30
    if now < nextRefreshTime then
      addJobReplace t3
        { id := JobId.tokenRefreshExpiryProtection, func := JobFn.autoRefreshToken,
          trigger := JobTrigger.date nextRefreshTime }
    else t3

/-!
## `scheduler.init_scheduler` — startup reconciliation
-/

/-- The body of `init_scheduler`'s loop over pending schedules: classify
one entry against the clock and arm its jobs.  `none` models an uncaught
`ConflictingIdError` from `add_job`. -/
def processSchedule (E : Zone) (now : Int) (tbl : List Job) (s : Schedule) :
    Option (List Job) :=
  let triggerUtc := instantOf (astimezone (to_eastern E s.triggerTime) utcZone)
  let desiredUtc := instantOf (astimezone (to_eastern E s.desiredTime) utcZone)
  if triggerUtc ≤ now then
    if s.type = ScheduleType.oneOff then
      if now < desiredUtc then
        -- past-due one-off with desired time still ahead: login now,
        -- booking at now + 1 minute
        (addJob tbl
          { id := JobId.playwrightAuth s.id, func := JobFn.playwrightLoginWrapper,
            trigger := JobTrigger.date now }).bind
          (fun t => addJob t
            { id := JobId.booking s.id, func := JobFn.bookSlotWrapper,
              trigger := JobTrigger.date (now + 60) })
      else some tbl
    else some tbl
  else
    -- future trigger: login 4 minutes ahead (if still future), booking at
    -- the trigger instant
    (if now < triggerUtc - 240 then
      addJob tbl
        { id := JobId.playwrightAuth s.id, func := JobFn.playwrightLoginWrapper,
          trigger := JobTrigger.date (triggerUtc - 240) }
    else some tbl).bind
      (fun t => addJob t
        { id := JobId.booking s.id, func := JobFn.bookSlotDirect,
          trigger := JobTrigger.date triggerUtc })

/-- The `for schedule in pending:` loop of `init_scheduler`. -/
def armAll (E : Zone) (now : Int) (tbl : List Job) :
    List Schedule → Option (List Job)
  | [] => some tbl
  | s :: rest =>
    match processSchedule E now tbl s with
    | none => none
    | some tbl2 => armAll E now tbl2 rest

/-- The tail of `init_scheduler`: if a token row exists with a truthy
`refresh_expiry` still in the future, arm the refresh cadence. -/
def armRefreshStage (token : Option Token) (jobs : List Job) (now : Int) :
    List Job :=
  match token with
  | some tok =>
    if tok.refresh_expiry ≠ 0 ∧ now < tok.refresh_expiry then
      schedule_next_token_refresh jobs (some tok) now
    else jobs
  | none => jobs

/-- `scheduler.init_scheduler`: clears the job table, arms jobs for every
pending schedule, then arms the refresh cadence when a live token row
exists.  The schedule rows are returned unchanged: the function never
writes to them. -/
def init_scheduler (E : Zone) (now : Int) (token : Option Token)
    (db : List Schedule) : Option (List Job × List Schedule) :=
  match armAll E now [] (db.filter (fun s => s.status == "pending")) with
  | none => none
  | some jobs => some (armRefreshStage token jobs now, db)

/-!
## Characterizing the reconciliation loop
-/

/-- The jobs `processSchedule` arms for one entry, branch by branch. -/
def jobsFor (E : Zone) (now : Int) (s : Schedule) : List Job :=
  let triggerUtc := instantOf (astimezone (to_eastern E s.triggerTime) utcZone)
  let desiredUtc := instantOf (astimezone (to_eastern E s.desiredTime) utcZone)
  if triggerUtc ≤ now then
    if s.type = ScheduleType.oneOff then
      if now < desiredUtc then
        [{ id := JobId.playwrightAuth s.id, func := JobFn.playwrightLoginWrapper,
           trigger := JobTrigger.date now },
         { id := JobId.booking s.id, func := JobFn.bookSlotWrapper,
           trigger := JobTrigger.date (now + 60) }]
      else []
    else []
  else
    (if now < triggerUtc - 240 then
      [{ id := JobId.playwrightAuth s.id, func := JobFn.playwrightLoginWrapper,
         trigger := JobTrigger.date (triggerUtc - 240) }]
    else []) ++
    [{ id := JobId.booking s.id, func := JobFn.bookSlotDirect,
       trigger := JobTrigger.date triggerUtc }]

theorem addJob_of_fresh (tbl : List Job) (j : Job)
    (h : ∀ o ∈ tbl, o.id ≠ j.id) : addJob tbl j = some (tbl ++ [j]) := by
  unfold addJob
  rw [if_neg]
  simp only [List.any_eq_true, beq_iff_eq, not_exists, not_and]
  intro o ho
  exact h o ho

theorem jobsFor_id_mem (E : Zone) (now : Int) (s : Schedule) (j : Job)
    (hj : j ∈ jobsFor E now s) :
    j.id = JobId.playwrightAuth s.id ∨ j.id = JobId.booking s.id := by
  unfold jobsFor at hj
  by_cases h1 : instantOf (astimezone (to_eastern E s.triggerTime) utcZone) ≤ now
  · by_cases h2 : s.type = ScheduleType.oneOff
    · by_cases h3 : now < instantOf (astimezone (to_eastern E s.desiredTime) utcZone)
      · simp only [h1, h2, h3, if_true, ite_true, List.mem_cons,
          List.mem_singleton] at hj
        rcases hj with h | h | h
        · left; rw [h]
        · right; rw [h]
        · cases h
      · simp [h1, h2, h3] at hj
    · simp [h1, h2] at hj
  · by_cases h4 : now < instantOf (astimezone (to_eastern E s.triggerTime) utcZone) - 240
    · simp only [h1, h4, if_true, if_false, ite_true, ite_false, List.cons_append,
        List.nil_append, List.mem_cons, List.mem_singleton] at hj
      rcases hj with h | h | h
      · left; rw [h]
      · right; rw [h]
      · cases h
    · simp only [h1, h4, if_true, if_false, ite_true, ite_false, List.nil_append,
        List.mem_singleton] at hj
      right; rw [hj]

theorem processSchedule_eq (E : Zone) (now : Int) (tbl : List Job) (s : Schedule)
    (h : ∀ o ∈ tbl,
      o.id ≠ JobId.playwrightAuth s.id ∧ o.id ≠ JobId.booking s.id) :
    processSchedule E now tbl s = some (tbl ++ jobsFor E now s) := by
  unfold processSchedule jobsFor
  by_cases h1 : instantOf (astimezone (to_eastern E s.triggerTime) utcZone) ≤ now
  · by_cases h2 : s.type = ScheduleType.oneOff
    · by_cases h3 : now < instantOf (astimezone (to_eastern E s.desiredTime) utcZone)
      · simp only [h1, h2, h3, if_true, ite_true]
        rw [addJob_of_fresh tbl _ (fun o ho => (h o ho).1)]
        show addJob (tbl ++ [_]) _ = _
        rw [addJob_of_fresh _ _ ?_]
        · simp
        · intro o ho
          rcases List.mem_append.mp ho with ho | ho
          · exact (h o ho).2
          · rw [List.mem_singleton] at ho
            rw [ho]; simp
      · simp [h1, h2, h3]
    · simp [h1, h2]
  · by_cases h4 : now < instantOf (astimezone (to_eastern E s.triggerTime) utcZone) - 240
    · simp only [h1, h4, if_true, if_false, ite_true, ite_false]
      rw [addJob_of_fresh tbl _ (fun o ho => (h o ho).1)]
      show addJob (tbl ++ [_]) _ = _
      rw [addJob_of_fresh _ _ ?_]
      · simp
      · intro o ho
        rcases List.mem_append.mp ho with ho | ho
        · exact (h o ho).2
        · rw [List.mem_singleton] at ho
          rw [ho]; simp
    · simp only [h1, h4, if_true, if_false, ite_true, ite_false]
      show addJob tbl _ = _
      rw [addJob_of_fresh tbl _ (fun o ho => (h o ho).2)]
      simp

/-- Concatenation of the per-entry job blocks. -/
def jobsForAll (E : Zone) (now : Int) : List Schedule → List Job
  | [] => []
  | s :: rest => jobsFor E now s ++ jobsForAll E now rest

theorem jobsForAll_id_mem (E : Zone) (now : Int) (l : List Schedule) (j : Job) :
    j ∈ jobsForAll E now l → ∃ s ∈ l, j ∈ jobsFor E now s := by
  induction l with
  | nil => intro hj; cases hj
  | cons s rest ih =>
    intro hj
    rcases List.mem_append.mp hj with hj | hj
    · exact ⟨s, List.mem_cons_self s rest, hj⟩
    · obtain ⟨t, ht, hjt⟩ := ih hj
      exact ⟨t, List.mem_cons_of_mem s ht, hjt⟩

theorem mem_jobsForAll (E : Zone) (now : Int) (l : List Schedule) (s : Schedule)
    (j : Job) (hj : j ∈ jobsFor E now s) :
    s ∈ l → j ∈ jobsForAll E now l := by
  induction l with
  | nil => intro hs; cases hs
  | cons t rest ih =>
    intro hs
    cases hs with
    | head => exact List.mem_append.mpr (Or.inl hj)
    | tail _ hs2 => exact List.mem_append.mpr (Or.inr (ih hs2))

theorem armAll_eq (E : Zone) (now : Int) : ∀ (l : List Schedule) (tbl : List Job),
    (l.map (fun s => s.id)).Nodup →
    (∀ o ∈ tbl, ∀ s ∈ l,
      o.id ≠ JobId.playwrightAuth s.id ∧ o.id ≠ JobId.booking s.id) →
    armAll E now tbl l = some (tbl ++ jobsForAll E now l) := by
  intro l
  induction l with
  | nil =>
    intro tbl _ _
    simp [armAll, jobsForAll]
  | cons s rest ih =>
    intro tbl hnd h
    have hnd2 : (∀ x ∈ rest, ¬ x.id = s.id) ∧ (rest.map (fun u => u.id)).Nodup := by
      simpa using hnd
    have hstep := processSchedule_eq E now tbl s
      (fun o ho => h o ho s (List.mem_cons_self s rest))
    simp only [armAll, hstep]
    rw [ih (tbl ++ jobsFor E now s) hnd2.2 ?_]
    · simp [jobsForAll, List.append_assoc]
    · intro o ho t ht
      rcases List.mem_append.mp ho with ho | ho
      · exact h o ho t (List.mem_cons_of_mem s ht)
      · have hid := jobsFor_id_mem E now s o ho
        have hne : ¬ s.id = t.id := fun hEq => hnd2.1 t ht (hEq ▸ rfl)
        rcases hid with hid | hid <;> rw [hid] <;>
          exact ⟨by simp [hne], by simp [hne]⟩

theorem mem_removeJobIfPresent_of_ne (tbl : List Job) (i : JobId) (j : Job)
    (hj : j ∈ tbl) (hne : j.id ≠ i) : j ∈ removeJobIfPresent tbl i := by
  unfold removeJobIfPresent
  split
  · exact List.mem_filter.mpr ⟨hj, by simp [hne]⟩
  · exact hj

theorem mem_removeJobIfPresent_elim (tbl : List Job) (i : JobId) (j : Job)
    (hj : j ∈ removeJobIfPresent tbl i) : j ∈ tbl := by
  unfold removeJobIfPresent at hj
  split at hj
  · exact (List.mem_filter.mp hj).1
  · exact hj

theorem mem_addJobReplace_of_ne (tbl : List Job) (k j : Job)
    (hj : j ∈ tbl) (hne : j.id ≠ k.id) : j ∈ addJobReplace tbl k := by
  unfold addJobReplace
  split
  · exact List.mem_map.mpr ⟨j, hj, by simp [hne]⟩
  · exact List.mem_append.mpr (Or.inl hj)

theorem mem_addJobReplace_elim (tbl : List Job) (k j : Job)
    (hj : j ∈ addJobReplace tbl k) : j ∈ tbl ∨ j = k := by
  unfold addJobReplace at hj
  split at hj
  · obtain ⟨o, ho, hoj⟩ := List.mem_map.mp hj
    by_cases hc : o.id = k.id
    · right
      rw [← hoj]; simp [hc]
    · left
      rw [← hoj]; simpa [hc] using ho
  · rcases List.mem_append.mp hj with h | h
    · exact Or.inl h
    · right; exact List.mem_singleton.mp h

theorem mem_schedule_next_token_refresh_of_mem (tbl : List Job) (tok : Token)
    (now : Int) (j : Job) (hj : j ∈ tbl)
    (h1 : j.id ≠ JobId.tokenRefresh)
    (h2 : j.id ≠ JobId.tokenRefreshInterval)
    (h3 : j.id ≠ JobId.tokenRefreshExpiryProtection) :
    j ∈ schedule_next_token_refresh tbl (some tok) now := by
  have m1 := mem_removeJobIfPresent_of_ne tbl JobId.tokenRefresh j hj h1
  have m2 := mem_removeJobIfPresent_of_ne _ JobId.tokenRefreshInterval j m1 h2
  have m3 := mem_addJobReplace_of_ne _
    { id := JobId.tokenRefreshInterval, func := JobFn.autoRefreshToken,
      trigger := JobTrigger.interval 20 } j m2 h2
  show j ∈ (if now < tok.refresh_expiry - 30 then addJobReplace _ _ else _)
  split
  · exact mem_addJobReplace_of_ne _
      { id := JobId.tokenRefreshExpiryProtection,
        func := JobFn.autoRefreshToken,
        trigger := JobTrigger.date (tok.refresh_expiry - 30) } j m3 h3
  · exact m3

theorem mem_schedule_next_token_refresh_elim (tbl : List Job) (tok : Token)
    (now : Int) (j : Job) (hj : j ∈ schedule_next_token_refresh tbl (some tok) now) :
    j ∈ tbl ∨ j.id = JobId.tokenRefreshInterval ∨
      j.id = JobId.tokenRefreshExpiryProtection := by
  have hj2 : j ∈ (if now < tok.refresh_expiry - 30 then
      addJobReplace (addJobReplace
        (removeJobIfPresent (removeJobIfPresent tbl JobId.tokenRefresh)
          JobId.tokenRefreshInterval)
        { id := JobId.tokenRefreshInterval, func := JobFn.autoRefreshToken,
          trigger := JobTrigger.interval 20 })
        { id := JobId.tokenRefreshExpiryProtection, func := JobFn.autoRefreshToken,
          trigger := JobTrigger.date (tok.refresh_expiry - 30) }
    else addJobReplace
        (removeJobIfPresent (removeJobIfPresent tbl JobId.tokenRefresh)
          JobId.tokenRefreshInterval)
        { id := JobId.tokenRefreshInterval, func := JobFn.autoRefreshToken,
          trigger := JobTrigger.interval 20 }) := hj
  clear hj
  split at hj2
  · rcases mem_addJobReplace_elim _ _ j hj2 with hj3 | hj3
    · rcases mem_addJobReplace_elim _ _ j hj3 with hj4 | hj4
      · exact Or.inl (mem_removeJobIfPresent_elim _ _ j
          (mem_removeJobIfPresent_elim _ _ j hj4))
      · right; left; rw [hj4]
    · right; right; rw [hj3]
  · rcases mem_addJobReplace_elim _ _ j hj2 with hj3 | hj3
    · exact Or.inl (mem_removeJobIfPresent_elim _ _ j
        (mem_removeJobIfPresent_elim _ _ j hj3))
    · right; left; rw [hj3]

theorem mem_armRefreshStage_of_mem (token : Option Token) (jobs : List Job)
    (now : Int) (j : Job) (hj : j ∈ jobs)
    (h1 : j.id ≠ JobId.tokenRefresh)
    (h2 : j.id ≠ JobId.tokenRefreshInterval)
    (h3 : j.id ≠ JobId.tokenRefreshExpiryProtection) :
    j ∈ armRefreshStage token jobs now := by
  cases token with
  | none => exact hj
  | some tok =>
    show j ∈ (if tok.refresh_expiry ≠ 0 ∧ now < tok.refresh_expiry then
        schedule_next_token_refresh jobs (some tok) now
      else jobs)
    split
    · exact mem_schedule_next_token_refresh_of_mem jobs tok now j hj h1 h2 h3
    · exact hj

theorem mem_armRefreshStage_elim (token : Option Token) (jobs : List Job)
    (now : Int) (j : Job) (hj : j ∈ armRefreshStage token jobs now) :
    j ∈ jobs ∨ j.id = JobId.tokenRefreshInterval ∨
      j.id = JobId.tokenRefreshExpiryProtection := by
  cases token with
  | none => exact Or.inl hj
  | some tok =>
    have hj2 : j ∈ (if tok.refresh_expiry ≠ 0 ∧ now < tok.refresh_expiry then
        schedule_next_token_refresh jobs (some tok) now
      else jobs) := hj
    split at hj2
    · exact mem_schedule_next_token_refresh_elim jobs tok now j hj2
    · exact Or.inl hj2

/-!
## C1 — the startup rescue path for past-due one-off entries
-/

/-- C1 (amended): for every pending one-off entry whose trigger instant is
at or before `now` while its desired instant is still ahead of `now`,
startup reconciliation succeeds, leaves the schedule rows unchanged, and
arms the Playwright-login (token-prep) action at `now` together with the
booking action at `now + 60` seconds — one minute of grace, not the 30
seconds the specification states. -/
theorem init_scheduler_rescue_path (E : Zone) (now : Int) (token : Option Token)
    (db : List Schedule) (s : Schedule)
    (hnd : ((db.filter (fun t => t.status == "pending")).map (fun t => t.id)).Nodup)
    (hs : s ∈ db) (hstat : s.status = "pending")
    (hty : s.type = ScheduleType.oneOff)
    (htr : instantOf (astimezone (to_eastern E s.triggerTime) utcZone) ≤ now)
    (hd : now < instantOf (astimezone (to_eastern E s.desiredTime) utcZone)) :
    ∃ jobs, init_scheduler E now token db = some (jobs, db) ∧
      Job.mk (JobId.playwrightAuth s.id) JobFn.playwrightLoginWrapper
        (JobTrigger.date now) ∈ jobs ∧
      Job.mk (JobId.booking s.id) JobFn.bookSlotWrapper
        (JobTrigger.date (now + 60)) ∈ jobs := by
  have hpend : s ∈ db.filter (fun t => t.status == "pending") :=
    List.mem_filter.mpr ⟨hs, by simp [hstat]⟩
  have harm := armAll_eq E now (db.filter (fun t => t.status == "pending")) []
    hnd (fun o ho => absurd ho (List.not_mem_nil o))
  have hjf : jobsFor E now s =
      [Job.mk (JobId.playwrightAuth s.id) JobFn.playwrightLoginWrapper
        (JobTrigger.date now),
       Job.mk (JobId.booking s.id) JobFn.bookSlotWrapper
        (JobTrigger.date (now + 60))] := by
    simp [jobsFor, htr, hty, hd]
  have hpa := mem_jobsForAll E now (db.filter (fun t => t.status == "pending")) s
    (Job.mk (JobId.playwrightAuth s.id) JobFn.playwrightLoginWrapper
      (JobTrigger.date now)) (by rw [hjf]; simp) hpend
  have hbk := mem_jobsForAll E now (db.filter (fun t => t.status == "pending")) s
    (Job.mk (JobId.booking s.id) JobFn.bookSlotWrapper
      (JobTrigger.date (now + 60))) (by rw [hjf]; simp) hpend
  unfold init_scheduler
  rw [harm]
  simp only [List.nil_append]
  exact ⟨armRefreshStage token (jobsForAll E now
      (db.filter (fun t => t.status == "pending"))) now, rfl,
    mem_armRefreshStage_of_mem token _ now _ hpa (by simp) (by simp) (by simp),
    mem_armRefreshStage_of_mem token _ now _ hbk (by simp) (by simp) (by simp)⟩

/-- A concrete pending one-off entry whose trigger has passed but whose
desired time is still ahead when reconciliation runs at instant 1000. -/
def rescueSample : Schedule :=
  { id := 1, type := ScheduleType.oneOff,
    desiredTime := { civil := 2000, tz := none },
    triggerTime := { civil := 500, tz := none },
    status := "pending" }

/-- C1 counterexample to the stated 30-second grace: at the concrete
rescue input the booking action is armed at `now + 60`, and that date is
not `now + 30`. -/
theorem init_scheduler_rescue_grace_counterexample :
    ((init_scheduler (fixedZone 0) 1000 none [rescueSample]).map
        (fun r => (r.1.filter (fun j => j.id == JobId.booking 1)).map
          (fun j => j.trigger)))
      = some [JobTrigger.date 1060] ∧
    JobTrigger.date 1060 ≠ JobTrigger.date (1000 + 30) := by
  constructor
  · rfl
  · decide

/-- Witness for `init_scheduler_rescue_path` at the concrete input. -/
theorem init_scheduler_rescue_path_witness :
    ∃ jobs, init_scheduler (fixedZone 0) 1000 none [rescueSample]
        = some (jobs, [rescueSample]) ∧
      Job.mk (JobId.playwrightAuth 1) JobFn.playwrightLoginWrapper
        (JobTrigger.date 1000) ∈ jobs ∧
      Job.mk (JobId.booking 1) JobFn.bookSlotWrapper
        (JobTrigger.date (1000 + 60)) ∈ jobs :=
  init_scheduler_rescue_path (fixedZone 0) 1000 none [rescueSample] rescueSample
    (by decide) (List.Mem.head _) rfl rfl (by decide) (by decide)

/-!
## C8 — unrecoverable past-due entries are left alone
-/

/-- C8: a pending entry whose trigger has passed and that is recurring, or
whose desired instant has also passed, is skipped by reconciliation: the
run completes (no crash), the schedule rows — its `pending` status
included — are returned unchanged, and no timed action keyed to the entry
is armed. -/
theorem init_scheduler_unrecoverable_frame (E : Zone) (now : Int)
    (token : Option Token) (db : List Schedule) (s : Schedule)
    (hnd : ((db.filter (fun t => t.status == "pending")).map (fun t => t.id)).Nodup)
    (hs : s ∈ db) (hstat : s.status = "pending")
    (htr : instantOf (astimezone (to_eastern E s.triggerTime) utcZone) ≤ now)
    (hk : s.type = ScheduleType.recurring ∨
      instantOf (astimezone (to_eastern E s.desiredTime) utcZone) ≤ now) :
    ∃ jobs, init_scheduler E now token db = some (jobs, db) ∧
      ∀ j ∈ jobs, j.id ≠ JobId.playwrightAuth s.id ∧ j.id ≠ JobId.booking s.id := by
  have hpend : s ∈ db.filter (fun t => t.status == "pending") :=
    List.mem_filter.mpr ⟨hs, by simp [hstat]⟩
  have harm := armAll_eq E now (db.filter (fun t => t.status == "pending")) []
    hnd (fun o ho => absurd ho (List.not_mem_nil o))
  have hjf : jobsFor E now s = [] := by
    rcases hk with hk | hk
    · simp [jobsFor, htr, hk]
    · simp [jobsFor, htr, not_lt.mpr hk]
  have key : ∀ j ∈ jobsForAll E now (db.filter (fun t => t.status == "pending")),
      j.id ≠ JobId.playwrightAuth s.id ∧ j.id ≠ JobId.booking s.id := by
    intro j hj
    obtain ⟨t, ht, hjt⟩ := jobsForAll_id_mem E now _ j hj
    have hts : t.id = s.id → False := by
      intro hEq
      have : t = s := List.inj_on_of_nodup_map hnd ht hpend hEq
      rw [this, hjf] at hjt
      cases hjt
    rcases jobsFor_id_mem E now t j hjt with hid | hid
    · refine ⟨?_, ?_⟩
      · rw [hid]
        simpa using hts
      · rw [hid]
        simp
    · refine ⟨?_, ?_⟩
      · rw [hid]
        simp
      · rw [hid]
        simpa using hts
  unfold init_scheduler
  rw [harm]
  simp only [List.nil_append]
  refine ⟨armRefreshStage token (jobsForAll E now
      (db.filter (fun t => t.status == "pending"))) now, rfl, ?_⟩
  intro j hj
  rcases mem_armRefreshStage_elim token _ now j hj with hj2 | hj2 | hj2
  · exact key j hj2
  · exact ⟨by rw [hj2]; simp, by rw [hj2]; simp⟩
  · exact ⟨by rw [hj2]; simp, by rw [hj2]; simp⟩

/-- A concrete pending recurring entry whose trigger has passed. -/
def recurringSample : Schedule :=
  { id := 2, type := ScheduleType.recurring,
    desiredTime := { civil := 2000, tz := none },
    triggerTime := { civil := 500, tz := none },
    status := "pending" }

/-- Witness for `init_scheduler_unrecoverable_frame` at a concrete input. -/
theorem init_scheduler_unrecoverable_frame_witness :
    ∃ jobs, init_scheduler (fixedZone 0) 1000 none [recurringSample]
        = some (jobs, [recurringSample]) ∧
      ∀ j ∈ jobs, j.id ≠ JobId.playwrightAuth 2 ∧ j.id ≠ JobId.booking 2 :=
  init_scheduler_unrecoverable_frame (fixedZone 0) 1000 none [recurringSample]
    recurringSample (by decide) (List.Mem.head _) rfl (by decide) (Or.inl rfl)

/-!
## C2 — the armed refresh cadence
-/

theorem filter_id_unique (tbl : List Job) (i : JobId)
    (hnd : (tbl.map (fun o => o.id)).Nodup) :
    tbl.filter (fun o => o.id == i) = [] ∨
      ∃ o : Job, o.id = i ∧ tbl.filter (fun o => o.id == i) = [o] := by
  induction tbl with
  | nil => left; rfl
  | cons a rest ih =>
    have hnd2 : (∀ x ∈ rest, ¬ x.id = a.id) ∧ (rest.map (fun o => o.id)).Nodup := by
      simpa using hnd
    by_cases hai : a.id = i
    · right
      refine ⟨a, hai, ?_⟩
      have hrest : rest.filter (fun o => o.id == i) = [] := by
        refine List.filter_eq_nil_iff.mpr ?_
        intro o ho hcontra
        exact hnd2.1 o ho (by rw [show o.id = i from by simpa using hcontra, hai])
      simp [List.filter_cons, hai, hrest]
    · rcases ih hnd2.2 with h | ⟨o, ho1, ho2⟩
      · left; simp [List.filter_cons, hai, h]
      · right; exact ⟨o, ho1, by simp [List.filter_cons, hai, ho2]⟩

theorem filter_removeJobIfPresent_self (tbl : List Job) (i : JobId) :
    (removeJobIfPresent tbl i).filter (fun o => o.id == i) = [] := by
  unfold removeJobIfPresent
  split
  · refine List.filter_eq_nil_iff.mpr ?_
    intro o ho hcontra
    have h2 := (List.mem_filter.mp ho).2
    rw [hcontra] at h2
    cases h2
  · rename_i h
    refine List.filter_eq_nil_iff.mpr ?_
    intro o ho hcontra
    exact h (List.any_eq_true.mpr ⟨o, ho, hcontra⟩)

theorem filter_removeJobIfPresent_other (tbl : List Job) (i k : JobId)
    (hne : k ≠ i) :
    (removeJobIfPresent tbl i).filter (fun o => o.id == k)
      = tbl.filter (fun o => o.id == k) := by
  unfold removeJobIfPresent
  split
  · rw [List.filter_filter]
    refine List.filter_congr ?_
    intro o ho
    by_cases h : o.id = k
    · simp [h, hne]
    · simp [h]
  · rfl

theorem filter_addJobReplace_self (tbl : List Job) (j : Job) (i : JobId)
    (hi : j.id = i) (hnd : (tbl.map (fun o => o.id)).Nodup) :
    (addJobReplace tbl j).filter (fun o => o.id == i) = [j] := by
  subst hi
  unfold addJobReplace
  split
  · rename_i hpresent
    rw [List.filter_map]
    have hcong : tbl.filter
        ((fun o => o.id == j.id) ∘ (fun o => if o.id == j.id then j else o))
        = tbl.filter (fun o => o.id == j.id) := by
      refine List.filter_congr ?_
      intro o ho
      by_cases h : o.id = j.id
      · simp [Function.comp, h]
      · simp [Function.comp, h]
    rw [hcong]
    rcases filter_id_unique tbl j.id hnd with h | ⟨o, ho1, ho2⟩
    · exfalso
      obtain ⟨o, ho, hoid⟩ := List.any_eq_true.mp hpresent
      have hmem : o ∈ tbl.filter (fun o => o.id == j.id) :=
        List.mem_filter.mpr ⟨ho, hoid⟩
      rw [h] at hmem
      cases hmem
    · rw [ho2]
      simp [ho1]
  · rename_i habsent
    rw [List.filter_append]
    have h1 : tbl.filter (fun o => o.id == j.id) = [] := by
      refine List.filter_eq_nil_iff.mpr ?_
      intro o ho hcontra
      exact habsent (List.any_eq_true.mpr ⟨o, ho, hcontra⟩)
    rw [h1]
    simp

theorem filter_addJobReplace_other (tbl : List Job) (j : Job) (k : JobId)
    (hne : k ≠ j.id) :
    (addJobReplace tbl j).filter (fun o => o.id == k)
      = tbl.filter (fun o => o.id == k) := by
  unfold addJobReplace
  split
  · rw [List.filter_map]
    have hcong : tbl.filter
        ((fun o => o.id == k) ∘ (fun o => if o.id == j.id then j else o))
        = tbl.filter (fun o => o.id == k) := by
      refine List.filter_congr ?_
      intro o ho
      by_cases h : o.id = j.id
      · simp [Function.comp, h, Ne.symm hne]
      · simp [Function.comp, h]
    rw [hcong]
    have hid : (tbl.filter (fun o => o.id == k)).map
        (fun o => if o.id == j.id then j else o)
        = (tbl.filter (fun o => o.id == k)).map id := by
      refine List.map_eq_map_iff.mpr ?_
      intro o ho
      have h2 : o.id = k := by simpa using (List.mem_filter.mp ho).2
      simp [h2, hne]
    rw [hid, List.map_id]
  · rw [List.filter_append]
    simp [Ne.symm hne]

theorem nodup_ids_removeJobIfPresent (tbl : List Job) (i : JobId)
    (hnd : (tbl.map (fun o => o.id)).Nodup) :
    ((removeJobIfPresent tbl i).map (fun o => o.id)).Nodup := by
  unfold removeJobIfPresent
  split
  · exact List.Nodup.sublist (List.Sublist.map _ (List.filter_sublist tbl)) hnd
  · exact hnd

theorem nodup_ids_addJobReplace (tbl : List Job) (j : Job)
    (hnd : (tbl.map (fun o => o.id)).Nodup) :
    ((addJobReplace tbl j).map (fun o => o.id)).Nodup := by
  unfold addJobReplace
  split
  · have hmap : (tbl.map (fun o => if o.id == j.id then j else o)).map
        (fun o => o.id) = tbl.map (fun o => o.id) := by
      rw [List.map_map]
      refine List.map_eq_map_iff.mpr ?_
      intro o ho
      by_cases h : o.id = j.id
      · simp [Function.comp, h]
      · simp [Function.comp, h]
    rw [hmap]
    exact hnd
  · rename_i habsent
    rw [List.map_append]
    refine List.Nodup.append hnd (by simp) ?_
    intro a ha hmem
    have ha2 : a = j.id := by simpa using hmem
    obtain ⟨o, ho, hoid⟩ := List.mem_map.mp ha
    exact habsent (List.any_eq_true.mpr ⟨o, ho, by simp [hoid, ha2]⟩)

/-- C2 (amended): arming the refresh cadence leaves, for the credential,
exactly one interval refresh job (every 20 minutes) and exactly one
expiry-protection date job at `refresh_expires_at − 30 s` — two live
refresh timers, not the single one the specification states — and no
legacy `token_refresh` job.  The statement holds for any well-formed job
table, already-armed tables included, so re-arming replaces rather than
duplicates. -/
theorem schedule_next_token_refresh_spec (tbl : List Job) (tok : Token)
    (now : Int) (hnd : (tbl.map (fun o => o.id)).Nodup)
    (h : now < tok.refresh_expiry - 30) :
    (schedule_next_token_refresh tbl (some tok) now).filter
        (fun o => o.id == JobId.tokenRefreshInterval)
      = [{ id := JobId.tokenRefreshInterval, func := JobFn.autoRefreshToken,
           trigger := JobTrigger.interval 20 }] ∧
    (schedule_next_token_refresh tbl (some tok) now).filter
        (fun o => o.id == JobId.tokenRefreshExpiryProtection)
      = [{ id := JobId.tokenRefreshExpiryProtection, func := JobFn.autoRefreshToken,
           trigger := JobTrigger.date (tok.refresh_expiry - 30) }] ∧
    (schedule_next_token_refresh tbl (some tok) now).filter
        (fun o => o.id == JobId.tokenRefresh) = [] := by
  have hout : schedule_next_token_refresh tbl (some tok) now
      = addJobReplace (addJobReplace
          (removeJobIfPresent (removeJobIfPresent tbl JobId.tokenRefresh)
            JobId.tokenRefreshInterval)
          { id := JobId.tokenRefreshInterval, func := JobFn.autoRefreshToken,
            trigger := JobTrigger.interval 20 })
          { id := JobId.tokenRefreshExpiryProtection,
            func := JobFn.autoRefreshToken,
            trigger := JobTrigger.date (tok.refresh_expiry - 30) } := by
    show (if now < tok.refresh_expiry - 30 then _ else _) = _
    exact if_pos h
  have hnd1 := nodup_ids_removeJobIfPresent tbl JobId.tokenRefresh hnd
  have hnd2 := nodup_ids_removeJobIfPresent _ JobId.tokenRefreshInterval hnd1
  have hnd3 := nodup_ids_addJobReplace _
    { id := JobId.tokenRefreshInterval, func := JobFn.autoRefreshToken,
      trigger := JobTrigger.interval 20 } hnd2
  refine ⟨?_, ?_, ?_⟩
  · rw [hout, filter_addJobReplace_other _ _ _ (by simp),
      filter_addJobReplace_self _
        { id := JobId.tokenRefreshInterval, func := JobFn.autoRefreshToken,
          trigger := JobTrigger.interval 20 }
        JobId.tokenRefreshInterval rfl hnd2]
  · rw [hout, filter_addJobReplace_self _
        { id := JobId.tokenRefreshExpiryProtection,
          func := JobFn.autoRefreshToken,
          trigger := JobTrigger.date (tok.refresh_expiry - 30) }
        JobId.tokenRefreshExpiryProtection rfl hnd3]
  · rw [hout, filter_addJobReplace_other _ _ _ (by simp),
      filter_addJobReplace_other _ _ _ (by simp),
      filter_removeJobIfPresent_other _ _ _ (by simp),
      filter_removeJobIfPresent_self]

/-- A concrete token row: refresh secret valid until instant 1000. -/
def sampleToken : Token :=
  { access_token := "at", refresh_token := "rt", access_expiry := 600,
    refresh_expiry := 1000, session_state := "s" }

/-- C2 counterexample to "exactly one live refresh timed action": arming
the cadence on an empty table at instant 0 leaves two refresh jobs — the
20-minute interval job and the expiry-protection job at
`refresh_expires_at − 30 = 970`. -/
theorem schedule_next_token_refresh_two_jobs_counterexample :
    schedule_next_token_refresh [] (some sampleToken) 0
      = [{ id := JobId.tokenRefreshInterval, func := JobFn.autoRefreshToken,
           trigger := JobTrigger.interval 20 },
         { id := JobId.tokenRefreshExpiryProtection,
           func := JobFn.autoRefreshToken,
           trigger := JobTrigger.date 970 }] ∧
    (schedule_next_token_refresh [] (some sampleToken) 0).length ≠ 1 := by
  constructor
  · rfl
  · decide

/-- Witness for `schedule_next_token_refresh_spec` at a concrete input. -/
theorem schedule_next_token_refresh_spec_witness :
    (schedule_next_token_refresh [] (some sampleToken) 0).filter
        (fun o => o.id == JobId.tokenRefreshInterval)
      = [{ id := JobId.tokenRefreshInterval, func := JobFn.autoRefreshToken,
           trigger := JobTrigger.interval 20 }] ∧
    (schedule_next_token_refresh [] (some sampleToken) 0).filter
        (fun o => o.id == JobId.tokenRefreshExpiryProtection)
      = [{ id := JobId.tokenRefreshExpiryProtection,
           func := JobFn.autoRefreshToken,
           trigger := JobTrigger.date (sampleToken.refresh_expiry - 30) }] ∧
    (schedule_next_token_refresh [] (some sampleToken) 0).filter
        (fun o => o.id == JobId.tokenRefresh) = [] :=
  schedule_next_token_refresh_spec [] sampleToken 0 (by decide) (by decide)

/-!
## C3 — `api.cancel_schedule`
-/

/-- The two HTTP error classes `cancel_schedule` raises: 404 when the id
is unknown, 400 when the entry is not pending. -/
inductive CancelError
  | notFound
  | notPending
  deriving DecidableEq, Repr

/-- Mutate the first element satisfying `p` (the row a SQLAlchemy
`filter(...).first()` query hands back). -/
def updateFirst (p : Schedule → Bool) (f : Schedule → Schedule) :
    List Schedule → List Schedule
  | [] => []
  | x :: xs => if p x then f x :: xs else x :: updateFirst p f xs

/-- `api.cancel_schedule`: look the schedule up (404 if absent), reject
non-pending entries (400), set the status to `cancelled` and commit, then
remove the `booking_{id}` job inside `try/except: pass`.  The
`playwright_auth_{id}` job is never touched. -/
def cancel_schedule (db : List Schedule) (tbl : List Job) (sid : Nat) :
    Except CancelError (List Schedule × List Job) :=
  match db.find? (fun t => t.id == sid) with
  | none => Except.error CancelError.notFound
  | some s =>
    if s.status ≠ "pending" then Except.error CancelError.notPending
    else
      Except.ok (updateFirst (fun t => t.id == sid)
          (fun t => { t with status := "cancelled" }) db,
        removeJobIfPresent tbl (JobId.booking sid))

theorem not_id_mem_removeJobIfPresent (tbl : List Job) (i : JobId) (j : Job)
    (hj : j ∈ removeJobIfPresent tbl i) : j.id ≠ i := by
  unfold removeJobIfPresent at hj
  split at hj
  · intro hc
    have h2 := (List.mem_filter.mp hj).2
    rw [show (j.id == i) = true by simp [hc]] at h2
    cases h2
  · rename_i h
    intro hc
    exact h (List.any_eq_true.mpr ⟨j, hj, by simp [hc]⟩)

theorem removeJobIfPresent_of_absent (tbl : List Job) (i : JobId)
    (h : ∀ j ∈ tbl, j.id ≠ i) : removeJobIfPresent tbl i = tbl := by
  unfold removeJobIfPresent
  rw [if_neg]
  simp only [List.any_eq_true, beq_iff_eq, not_exists, not_and]
  exact h

theorem updateFirst_cancel_mem (db : List Schedule) (sid : Nat)
    (hnd : (db.map (fun t => t.id)).Nodup) :
    ∀ t ∈ updateFirst (fun t => t.id == sid)
        (fun t => { t with status := "cancelled" }) db,
      (t.id = sid → t.status = "cancelled") ∧ (t.id ≠ sid → t ∈ db) := by
  induction db with
  | nil => intro t ht; cases ht
  | cons x xs ih =>
    have hnd2 : (∀ u ∈ xs, ¬ u.id = x.id) ∧ (xs.map (fun t => t.id)).Nodup := by
      simpa using hnd
    intro t ht
    unfold updateFirst at ht
    by_cases hx : x.id = sid
    · rw [if_pos (by simp [hx])] at ht
      cases ht with
      | head => exact ⟨fun _ => rfl, fun hne => absurd hx hne⟩
      | tail _ ht2 =>
        constructor
        · intro hts
          exact absurd (hts.trans hx.symm) (hnd2.1 t ht2)
        · intro _
          exact List.mem_cons_of_mem x ht2
    · rw [if_neg (by simp [hx])] at ht
      cases ht with
      | head => exact ⟨fun hc => absurd hc hx, fun _ => List.mem_cons_self x xs⟩
      | tail _ ht2 =>
        obtain ⟨h1, h2⟩ := ih hnd2.2 t ht2
        exact ⟨h1, fun hne => List.mem_cons_of_mem x (h2 hne)⟩

theorem updateFirst_cancel_hits (db : List Schedule) (sid : Nat) (s : Schedule)
    (hs : s ∈ db) (hsid : s.id = sid) :
    ∃ t ∈ updateFirst (fun t => t.id == sid)
        (fun t => { t with status := "cancelled" }) db,
      t.id = sid ∧ t.status = "cancelled" := by
  induction db with
  | nil => cases hs
  | cons x xs ih =>
    unfold updateFirst
    by_cases hx : x.id = sid
    · refine ⟨{ x with status := "cancelled" }, ?_, hx, rfl⟩
      rw [if_pos (by simp [hx])]
      exact List.mem_cons_self _ _
    · rw [if_neg (by simp [hx])]
      cases hs with
      | head => exact absurd hsid hx
      | tail _ hs2 =>
        obtain ⟨t, ht, h1, h2⟩ := ih hs2
        exact ⟨t, List.mem_cons_of_mem x ht, h1, h2⟩

/-- C3 (amended): cancelling a found, pending entry succeeds, marks the
entry `cancelled`, leaves every other row in place, and removes the
`Booking` action keyed to the entry if armed — a no-op, not an error,
when that action was never armed or has already fired.  The `TokenPrep`
(`playwright_auth_{id}`) action is NOT removed, contrary to the claim:
every non-booking job, that one included, survives. -/
theorem cancel_schedule_spec (db : List Schedule) (tbl : List Job) (sid : Nat)
    (s : Schedule) (hnd : (db.map (fun t => t.id)).Nodup)
    (hfind : db.find? (fun t => t.id == sid) = some s)
    (hp : s.status = "pending") :
    ∃ db2 tbl2, cancel_schedule db tbl sid = Except.ok (db2, tbl2) ∧
      (∀ j ∈ tbl2, j.id ≠ JobId.booking sid) ∧
      (∀ j ∈ tbl, j.id ≠ JobId.booking sid → j ∈ tbl2) ∧
      ((∀ j ∈ tbl, j.id ≠ JobId.booking sid) → tbl2 = tbl) ∧
      (∃ t ∈ db2, t.id = sid ∧ t.status = "cancelled") ∧
      (∀ t ∈ db2, t.id ≠ sid → t ∈ db) := by
  have hmem : s ∈ db := List.mem_of_find?_eq_some hfind
  have hsid : s.id = sid := by
    have := List.find?_some hfind
    simpa using this
  refine ⟨updateFirst (fun t => t.id == sid)
      (fun t => { t with status := "cancelled" }) db,
    removeJobIfPresent tbl (JobId.booking sid), ?_, ?_, ?_, ?_, ?_, ?_⟩
  · unfold cancel_schedule
    rw [hfind]
    exact if_neg (by simp [hp])
  · exact fun j hj => not_id_mem_removeJobIfPresent tbl _ j hj
  · exact fun j hj hne => mem_removeJobIfPresent_of_ne tbl _ j hj hne
  · exact fun h => removeJobIfPresent_of_absent tbl _ h
  · exact updateFirst_cancel_hits db sid s hmem hsid
  · exact fun t ht hne => (updateFirst_cancel_mem db sid hnd t ht).2 hne

/-- A concrete pending entry with both of its actions armed. -/
def cancelSample : Schedule :=
  { id := 3, type := ScheduleType.oneOff,
    desiredTime := { civil := 2000, tz := none },
    triggerTime := { civil := 500, tz := none },
    status := "pending" }

/-- The `playwright_auth_3` (TokenPrep) job of entry 3. -/
def prepJobOf3 : Job :=
  { id := JobId.playwrightAuth 3, func := JobFn.playwrightLoginWrapper,
    trigger := JobTrigger.date 700 }

/-- The `booking_3` job of entry 3. -/
def bookingJobOf3 : Job :=
  { id := JobId.booking 3, func := JobFn.bookSlotDirect,
    trigger := JobTrigger.date 940 }

/-- The job table for the cancellation examples: both of entry 3's
actions armed. -/
def cancelJobs : List Job :=
  [prepJobOf3, bookingJobOf3]

/-- C3 counterexample to "removes both actions": cancelling entry 3 with
its `playwright_auth_3` and `booking_3` jobs armed leaves the
`playwright_auth_3` (TokenPrep) job in the table — only the booking job
is removed. -/
theorem cancel_schedule_prep_left_counterexample :
    (cancel_schedule [cancelSample] cancelJobs 3).map (fun r => r.2)
      = Except.ok [prepJobOf3] ∧
    prepJobOf3.id = JobId.playwrightAuth 3 ∧
    ([prepJobOf3] : List Job) ≠ [] := by
  refine ⟨rfl, rfl, by decide⟩

/-- Witness for `cancel_schedule_spec` at a concrete input. -/
theorem cancel_schedule_spec_witness :
    ∃ db2 tbl2, cancel_schedule [cancelSample] cancelJobs 3
        = Except.ok (db2, tbl2) ∧
      (∀ j ∈ tbl2, j.id ≠ JobId.booking 3) ∧
      (∀ j ∈ cancelJobs, j.id ≠ JobId.booking 3 → j ∈ tbl2) ∧
      ((∀ j ∈ cancelJobs, j.id ≠ JobId.booking 3) → tbl2 = cancelJobs) ∧
      (∃ t ∈ db2, t.id = 3 ∧ t.status = "cancelled") ∧
      (∀ t ∈ db2, t.id ≠ 3 → t ∈ [cancelSample]) :=
  cancel_schedule_spec [cancelSample] cancelJobs 3 cancelSample
    (by decide) rfl rfl

/-!
## C4 — `bot.book_slot` and the fallback court
-/

/-- `bot.get_amenity_id`: court "1" maps to amenity 8, court "2" to
amenity 10, anything else defaults to 8. -/
def get_amenity_id (court_id : String) : Int :=
  if court_id == "1" then 8
  else if court_id == "2" then 10
  else 8

/-- `bot.book_slot` invoked with an explicit `prefilled_amenity_id` (the
recursive retry leg): a single attempt; on failure the status is
committed as `failed`, with no further recursion.  The oracle abstracts
every way an attempt can fail (token fetch raising, transport error,
non-2xx booking response); its first argument is the attempt index. -/
def book_slot_retry (oracle : Nat → Int → Bool) (amenity_id : Int)
    (attempt : Nat) : String × List Int :=
  if oracle attempt amenity_id then ("success", [amenity_id])
  else ("failed", [amenity_id])

/-- `bot.book_slot` invoked with `prefilled_amenity_id=None` (a booking
firing): attempt the entry's own court (`schedule.court_id or "1"`); on
any failure retry once with the forced amenity
`10 if schedule.court_id == "1" else 8`.  Returns the committed status
and the amenity ids attempted, in order. -/
def book_slot (oracle : Nat → Int → Bool) (court_id : Option String) :
    String × List Int :=
  let amenity_id := get_amenity_id (court_id.getD "1")
  if oracle 0 amenity_id then ("success", [amenity_id])
  else
    let r := book_slot_retry oracle (if court_id == some "1" then 10 else 8) 1
    (r.1, amenity_id :: r.2)

/-- The other member of the fixed two-member amenity set {8, 10}. -/
def otherAmenity (a : Int) : Int := if a = 8 then 10 else 8

/-- C4 (amended): when the first attempt fails, `book_slot` retries
exactly once, against amenity 10 when `court_id` is "1" and against
amenity 8 otherwise; for courts "1" and "2" that is the other member of
the two-member resource set, but for an absent or unknown `court_id` the
retry re-attempts the default amenity 8 rather than the other resource.
A successful retry commits status `success`, a failed retry commits
status `failed`, and there is no third attempt. -/
theorem book_slot_fallback_spec (oracle : Nat → Int → Bool)
    (court_id : Option String)
    (hfail : oracle 0 (get_amenity_id (court_id.getD "1")) = false) :
    (book_slot oracle court_id).2
      = [get_amenity_id (court_id.getD "1"),
         if court_id == some "1" then 10 else 8] ∧
    ((book_slot oracle court_id).1
      = if oracle 1 (if court_id == some "1" then 10 else 8) then "success"
        else "failed") ∧
    (court_id = some "1" →
      (if court_id == some "1" then (10 : Int) else 8)
        = otherAmenity (get_amenity_id (court_id.getD "1"))) ∧
    (court_id = some "2" →
      (if court_id == some "1" then (10 : Int) else 8)
        = otherAmenity (get_amenity_id (court_id.getD "1"))) := by
  refine ⟨?_, ?_, ?_, ?_⟩
  · unfold book_slot book_slot_retry
    rw [if_neg (by simp [hfail])]
    split
    all_goals
      dsimp only
      split <;> rfl
  · unfold book_slot book_slot_retry
    rw [if_neg (by simp [hfail])]
    split
    all_goals
      dsimp only
      split <;> rename_i h3 <;> simp [h3]
  · intro h
    subst h
    rfl
  · intro h
    subst h
    rfl

/-- C4 counterexample to "retries against the other resource": with no
`court_id` the first attempt uses the default amenity 8 and the retry
uses amenity 8 again — not the other member (10) of the resource set. -/
theorem book_slot_same_resource_counterexample :
    book_slot (fun _ _ => false) none = ("failed", [8, 8]) ∧
    otherAmenity 8 = 10 ∧
    ([(8 : Int), 8] : List Int) ≠ [8, 10] := by
  refine ⟨rfl, rfl, by decide⟩

/-- Witness for `book_slot_fallback_spec` at a concrete input: court "1",
first attempt fails, retry against amenity 10 succeeds. -/
theorem book_slot_fallback_spec_witness :
    (book_slot (fun _ a => a == 10) (some "1")).2 = [get_amenity_id "1",
      if (some "1" : Option String) == some "1" then 10 else 8] ∧
    ((book_slot (fun _ a => a == 10) (some "1")).1
      = if ((fun _ a => a == 10) : Nat → Int → Bool) 1
          (if (some "1" : Option String) == some "1" then 10 else 8)
        then "success" else "failed") ∧
    ((some "1" : Option String) = some "1" →
      (if (some "1" : Option String) == some "1" then (10 : Int) else 8)
        = otherAmenity (get_amenity_id ((some "1" : Option String).getD "1"))) ∧
    ((some "1" : Option String) = some "2" →
      (if (some "1" : Option String) == some "1" then (10 : Int) else 8)
        = otherAmenity (get_amenity_id ((some "1" : Option String).getD "1"))) :=
  book_slot_fallback_spec (fun _ a => a == 10) (some "1") (by decide)

/-!
## C5, C6, C7 — `auth.get_fresh_access_token` and `auth.prep_token_for_booking`

The OAuth refresh exchange is modelled by an oracle
`net : Option RefreshResponse`: `some data` is a 2xx response with a
well-formed JSON body, `none` is any failure — transport error, non-2xx
(`logged_request` calls `raise_for_status()`), or a malformed body whose
key lookup raises before any field is committed.  Fernet is an external
collaborator, passed in as the `encrypt`/`decrypt` functions.  Each
operation returns the call's result, the committed token row, and how
many network calls it made.
-/

/-- The parsed JSON body of a successful refresh exchange. -/
structure RefreshResponse where
  access_token : String
  refresh_token : String
  expires_in : Int
  refresh_expires_in : Int
  session_state : String
  deriving DecidableEq, Repr

/-- `auth.get_fresh_access_token`: return the stored secret while the
access expiry is more than 2 s (the buffer) away; raise when the refresh
secret expired strictly before `now`; otherwise perform the exchange and,
on success, commit all five fields with expiries rebased on `now`. -/
def get_fresh_access_token (encrypt decrypt : String → String) (tok : Token)
    (now : Int) (net : Option RefreshResponse) :
    Except String String × Token × Nat :=
  if now + 2 < tok.access_expiry then
    (Except.ok (decrypt tok.access_token), tok, 0)
  else if tok.refresh_expiry < now then
    (Except.error "Refresh token expired", tok, 0)
  else
    match net with
    | none => (Except.error "Token refresh failed", tok, 1)
    | some data =>
      (Except.ok data.access_token,
       { tok with
          access_token := encrypt data.access_token,
          refresh_token := encrypt data.refresh_token,
          access_expiry := now + data.expires_in,
          refresh_expiry := now + data.refresh_expires_in,
          session_state := data.session_state }, 1)

/-- `auth.prep_token_for_booking`: always exchange (no validity
short-circuit), but still raise when the refresh secret expired strictly
before `now`. -/
def prep_token_for_booking (encrypt : String → String) (tok : Token)
    (now : Int) (net : Option RefreshResponse) :
    Except String String × Token × Nat :=
  if tok.refresh_expiry < now then
    (Except.error "Refresh token expired", tok, 0)
  else
    match net with
    | none => (Except.error "Token preparation failed", tok, 1)
    | some data =>
      (Except.ok data.access_token,
       { tok with
          access_token := encrypt data.access_token,
          refresh_token := encrypt data.refresh_token,
          access_expiry := now + data.expires_in,
          refresh_expiry := now + data.refresh_expires_in,
          session_state := data.session_state }, 1)

theorem get_fresh_access_token_valid (encrypt decrypt : String → String)
    (tok : Token) (now : Int) (net : Option RefreshResponse)
    (h : now + 2 < tok.access_expiry) :
    get_fresh_access_token encrypt decrypt tok now net
      = (Except.ok (decrypt tok.access_token), tok, 0) := by
  unfold get_fresh_access_token
  rw [if_pos h]

theorem get_fresh_access_token_calls_le_one (encrypt decrypt : String → String)
    (tok : Token) (now : Int) (net : Option RefreshResponse) :
    (get_fresh_access_token encrypt decrypt tok now net).2.2 ≤ 1 := by
  unfold get_fresh_access_token
  split
  · exact Nat.zero_le 1
  · split
    · exact Nat.zero_le 1
    · match net with
      | none => exact Nat.le_refl 1
      | some data => exact Nat.le_refl 1

/-- C5 (amended): `get_fresh_access_token` fails with the
credential-expired error — committing nothing and performing no refresh
exchange — exactly when the access token is not inside its validity
window (`access_expires_at ≤ now + 2`) AND the refresh secret expired
strictly before now (`refresh_expires_at < now`, not `≤ now`). -/
theorem get_fresh_access_token_expired_spec (encrypt decrypt : String → String)
    (tok : Token) (now : Int) (net : Option RefreshResponse)
    (hval : tok.access_expiry ≤ now + 2)
    (hexp : tok.refresh_expiry < now) :
    get_fresh_access_token encrypt decrypt tok now net
      = (Except.error "Refresh token expired", tok, 0) := by
  unfold get_fresh_access_token
  rw [if_neg (not_lt.mpr hval), if_pos hexp]

/-- A refresh-exchange response used by the counterexamples/witnesses. -/
def sampleResponse : RefreshResponse :=
  { access_token := "nat", refresh_token := "nrt", expires_in := 1800,
    refresh_expires_in := 36000, session_state := "ns" }

/-- A token whose refresh secret expires exactly at instant 100. -/
def boundaryToken : Token :=
  { access_token := "at", refresh_token := "rt", access_expiry := 0,
    refresh_expiry := 100, session_state := "s" }

/-- A token whose access secret is still valid at instant 100 although
its refresh secret expired at instant 50. -/
def staleRefreshToken : Token :=
  { access_token := "at", refresh_token := "rt", access_expiry := 200,
    refresh_expiry := 50, session_state := "s" }

/-- C5 counterexample: (a) with `refresh_expires_at = now` exactly
(which the claim's `refresh_expires_at ≤ now` covers) the code performs
the refresh exchange — one network call, a successful result — instead of
failing; (b) with `refresh_expires_at ≤ now` but an access token still
inside its window, the call returns the stored secret successfully
instead of failing. -/
theorem get_fresh_access_token_boundary_counterexample :
    boundaryToken.refresh_expiry ≤ 100 ∧
    (get_fresh_access_token id id boundaryToken 100 (some sampleResponse)).2.2
      = 1 ∧
    (get_fresh_access_token id id boundaryToken 100 (some sampleResponse)).1
      = Except.ok "nat" ∧
    staleRefreshToken.refresh_expiry ≤ 100 ∧
    (get_fresh_access_token id id staleRefreshToken 100 none).1
      = Except.ok "at" ∧
    (get_fresh_access_token id id staleRefreshToken 100 none).2.2 = 0 := by
  refine ⟨by decide, rfl, rfl, by decide, rfl, rfl⟩

/-- Witness for `get_fresh_access_token_expired_spec`. -/
theorem get_fresh_access_token_expired_spec_witness :
    get_fresh_access_token id id boundaryToken 101 (some sampleResponse)
      = (Except.error "Refresh token expired", boundaryToken, 0) :=
  get_fresh_access_token_expired_spec id id boundaryToken 101
    (some sampleResponse) (by decide) (by decide)

/-- C6: while the access expiry is beyond the 2-second guard band the
stored secret is returned decrypted with zero network calls; and a second
call made while still inside the guard band of the (possibly refreshed)
credential performs no network call, so the two calls together make at
most one. -/
theorem get_fresh_access_token_guard_band (encrypt decrypt : String → String)
    (tok : Token) (t1 t2 : Int) (net1 net2 : Option RefreshResponse)
    (h2 : t2 + 2 <
      (get_fresh_access_token encrypt decrypt tok t1 net1).2.1.access_expiry) :
    (t1 + 2 < tok.access_expiry →
      get_fresh_access_token encrypt decrypt tok t1 net1
        = (Except.ok (decrypt tok.access_token), tok, 0)) ∧
    (get_fresh_access_token encrypt decrypt
        (get_fresh_access_token encrypt decrypt tok t1 net1).2.1 t2 net2).2.2
      = 0 ∧
    (get_fresh_access_token encrypt decrypt tok t1 net1).2.2 +
      (get_fresh_access_token encrypt decrypt
        (get_fresh_access_token encrypt decrypt tok t1 net1).2.1 t2 net2).2.2
      ≤ 1 := by
  have hsecond := get_fresh_access_token_valid encrypt decrypt
    (get_fresh_access_token encrypt decrypt tok t1 net1).2.1 t2 net2 h2
  refine ⟨?_, ?_, ?_⟩
  · intro h1
    exact get_fresh_access_token_valid encrypt decrypt tok t1 net1 h1
  · rw [hsecond]
  · rw [hsecond]
    simpa using get_fresh_access_token_calls_le_one encrypt decrypt tok t1 net1

/-- A token whose access secret is valid until instant 1000. -/
def freshToken : Token :=
  { access_token := "at", refresh_token := "rt", access_expiry := 1000,
    refresh_expiry := 2000, session_state := "s" }

/-- Witness for `get_fresh_access_token_guard_band`: two calls at
instants 10 and 20, both inside the guard band; no network call at all. -/
theorem get_fresh_access_token_guard_band_witness :
    (10 + 2 < freshToken.access_expiry →
      get_fresh_access_token id id freshToken 10 none
        = (Except.ok (id freshToken.access_token), freshToken, 0)) ∧
    (get_fresh_access_token id id
        (get_fresh_access_token id id freshToken 10 none).2.1 20 none).2.2
      = 0 ∧
    (get_fresh_access_token id id freshToken 10 none).2.2 +
      (get_fresh_access_token id id
        (get_fresh_access_token id id freshToken 10 none).2.1 20 none).2.2
      ≤ 1 :=
  get_fresh_access_token_guard_band id id freshToken 10 20 none none
    (by decide)

/-- C7: when the refresh exchange itself fails — transport error, non-2xx
status, or malformed body, all modelled by `net = none` — both
`get_fresh_access_token` (reaching its exchange) and
`prep_token_for_booking` leave every stored credential field exactly as
it was, reporting an error. -/
theorem refresh_failure_preserves_credential (encrypt decrypt : String → String)
    (tok : Token) (now : Int)
    (hval : tok.access_expiry ≤ now + 2)
    (hexp : now ≤ tok.refresh_expiry) :
    get_fresh_access_token encrypt decrypt tok now none
      = (Except.error "Token refresh failed", tok, 1) ∧
    prep_token_for_booking encrypt tok now none
      = (Except.error "Token preparation failed", tok, 1) := by
  constructor
  · unfold get_fresh_access_token
    rw [if_neg (not_lt.mpr hval), if_neg (not_lt.mpr hexp)]
  · unfold prep_token_for_booking
    rw [if_neg (not_lt.mpr hexp)]

/-- Witness for `refresh_failure_preserves_credential`. -/
theorem refresh_failure_preserves_credential_witness :
    get_fresh_access_token id id boundaryToken 90 none
      = (Except.error "Token refresh failed", boundaryToken, 1) ∧
    prep_token_for_booking id boundaryToken 90 none
      = (Except.error "Token preparation failed", boundaryToken, 1) :=
  refresh_failure_preserves_credential id id boundaryToken 90
    (by decide) (by decide)

/-!
## C10 — `schedule_service.create_schedules_from_request`
-/

/-- A `CreateScheduleRequest`: `desiredCivil` is the Eastern civil
reading `strptime(f"{date} {time}")` yields for a one-off request;
`timeHour`/`timeMinute` are the parsed pieces of `request.time` a
recurring request uses. -/
structure CreateScheduleRequest where
  schedule_type : String
  desiredCivil : Int
  day_of_week : String
  timeHour : Int
  timeMinute : Int
  occurrences : Nat
  court_id : Option String
  duration : Int

/-- The `day_map` of `get_next_day_occurrence` (Monday = 0) paired with
the RRULE `day_map` codes; `none` models the `KeyError` a bad key
raises. -/
def dayPair (d : String) : Option (Nat × String) :=
  if d == "MON" then some (0, "MO")
  else if d == "TUE" then some (1, "TU")
  else if d == "WED" then some (2, "WE")
  else if d == "THU" then some (3, "TH")
  else if d == "FRI" then some (4, "FR")
  else if d == "SAT" then some (5, "SA")
  else if d == "SUN" then some (6, "SU")
  else none

/-- `dt + timedelta(seconds=n)`: civil arithmetic, zone kept. -/
def addSeconds (dt : PyDateTime) (n : Int) : PyDateTime :=
  { civil := dt.civil + n, tz := dt.tz }

/-- `dt.replace(hour=h, minute=m, second=0, microsecond=0)`. -/
def replaceTime (dt : PyDateTime) (h m : Int) : PyDateTime :=
  { civil := (dt.civil.ediv 86400) * 86400 + h * 3600 + m * 60, tz := dt.tz }

/-- `dt.weekday()`: Monday = 0; the epoch (day 0) was a Thursday. -/
def weekday (dt : PyDateTime) : Int :=
  (dt.civil.ediv 86400 + 3) % 7

/-- `schedule_service.get_next_day_occurrence`: the next occurrence of
the target weekday at the requested wall-clock time, pushed a week out
when the slot today has already passed.  `now` is the absolute instant;
`datetime.now(eastern)` reads it in Eastern civil time. -/
def get_next_day_occurrence (E : Zone) (now : Int) (targetDay : Nat)
    (hour minute : Int) : PyDateTime :=
  let nowE : PyDateTime := { civil := now + E.offsetAt now, tz := some E }
  let daysAhead0 : Int := (targetDay : Int) - weekday nowE
  let daysAhead : Int :=
    if daysAhead0 < 0 then daysAhead0 + 7
    else if daysAhead0 = 0 then
      if instantOf (replaceTime nowE hour minute) ≤ instantOf nowE then 7
      else 0
    else daysAhead0
  replaceTime (addSeconds nowE (daysAhead * 86400)) hour minute

/-- `schedule_service.create_single_schedule`: trigger 7 days before the
desired instant, or 30 s from now when the desired instant is already
within 7 days; the row is created `pending`.  `nid` stands for the
primary key the commit assigns. -/
def create_single_schedule (E : Zone) (now : Int) (nid : Nat)
    (desired_time : PyDateTime) (court_id : Option String) (duration : Int)
    (ty : ScheduleType) (rrule : Option String) : Schedule :=
  let desired_time_utc := astimezone desired_time utcZone
  let time_until_desired := instantOf desired_time_utc - now
  let trigger_time : PyDateTime :=
    if time_until_desired ≤ 604800 then { civil := now + 30, tz := some utcZone }
    else addSeconds desired_time_utc (-604800)
  { id := nid, type := ty, desiredTime := desired_time, rrule := rrule,
    courtId := court_id, status := "pending",
    triggerTime := astimezone trigger_time E, duration := duration }

/-- `schedule_service.create_schedules_from_request`: a one-off request
materializes two one-off rows (week offsets 0 and 1); a recurring request
with `occurrences = 1` likewise materializes two rows at the next
occurrence and one week later; otherwise one row per occurrence.  `none`
models the `KeyError` an unknown `day_of_week` raises. -/
def create_schedules_from_request (E : Zone) (now : Int)
    (req : CreateScheduleRequest) : Option (List Schedule) :=
  if req.schedule_type == "one-off" then
    let desired : PyDateTime := { civil := req.desiredCivil, tz := some E }
    some [create_single_schedule E now 1 desired req.court_id req.duration
        ScheduleType.oneOff none,
      create_single_schedule E now 2 (addSeconds desired 604800) req.court_id
        req.duration ScheduleType.oneOff none]
  else
    match dayPair req.day_of_week with
    | none => none
    | some (d, code) =>
      let rrule := "FREQ=WEEKLY;BYDAY=" ++ code ++ ";BYHOUR="
        ++ toString req.timeHour ++ ";BYMINUTE=" ++ toString req.timeMinute
        ++ ";COUNT=" ++ toString req.occurrences
      let nextOccurrence :=
        get_next_day_occurrence E now d req.timeHour req.timeMinute
      if req.occurrences == 1 then
        some [create_single_schedule E now 1 nextOccurrence req.court_id
            req.duration ScheduleType.recurring (some rrule),
          create_single_schedule E now 2 (addSeconds nextOccurrence 604800)
            req.court_id req.duration ScheduleType.recurring (some rrule)]
      else
        some ((List.range req.occurrences).map (fun i =>
          create_single_schedule E now (i + 1)
            (addSeconds nextOccurrence (i * 604800)) req.court_id
            req.duration ScheduleType.recurring (some rrule)))

/-- C10: a request for a single occurrence — a one-off request, or a
recurring request with `occurrences = 1` — materializes exactly two
pending rows: one at the requested desired time and one exactly one civil
week (7 days of 86400 s) later. -/
theorem create_schedules_single_occurrence_pair (E : Zone) (now : Int)
    (req : CreateScheduleRequest) :
    (req.schedule_type = "one-off" →
      ∃ s1 s2, create_schedules_from_request E now req = some [s1, s2] ∧
        s1.status = "pending" ∧ s2.status = "pending" ∧
        s1.desiredTime = { civil := req.desiredCivil, tz := some E } ∧
        s2.desiredTime = { civil := req.desiredCivil + 604800, tz := some E }) ∧
    (req.schedule_type ≠ "one-off" → req.occurrences = 1 →
      ∀ d code, dayPair req.day_of_week = some (d, code) →
      ∃ s1 s2, create_schedules_from_request E now req = some [s1, s2] ∧
        s1.status = "pending" ∧ s2.status = "pending" ∧
        s1.desiredTime
          = get_next_day_occurrence E now d req.timeHour req.timeMinute ∧
        s2.desiredTime = addSeconds
          (get_next_day_occurrence E now d req.timeHour req.timeMinute)
          604800) := by
  constructor
  · intro h1
    refine ⟨create_single_schedule E now 1
        { civil := req.desiredCivil, tz := some E } req.court_id req.duration
        ScheduleType.oneOff none,
      create_single_schedule E now 2
        (addSeconds { civil := req.desiredCivil, tz := some E } 604800)
        req.court_id req.duration ScheduleType.oneOff none,
      ?_, rfl, rfl, rfl, rfl⟩
    unfold create_schedules_from_request
    rw [if_pos (by simp [h1])]
  · intro h1 hocc d code hday
    refine ⟨create_single_schedule E now 1
        (get_next_day_occurrence E now d req.timeHour req.timeMinute)
        req.court_id req.duration ScheduleType.recurring
        (some ("FREQ=WEEKLY;BYDAY=" ++ code ++ ";BYHOUR="
          ++ toString req.timeHour ++ ";BYMINUTE=" ++ toString req.timeMinute
          ++ ";COUNT=" ++ toString req.occurrences)),
      create_single_schedule E now 2
        (addSeconds (get_next_day_occurrence E now d req.timeHour
          req.timeMinute) 604800)
        req.court_id req.duration ScheduleType.recurring
        (some ("FREQ=WEEKLY;BYDAY=" ++ code ++ ";BYHOUR="
          ++ toString req.timeHour ++ ";BYMINUTE=" ++ toString req.timeMinute
          ++ ";COUNT=" ++ toString req.occurrences)),
      ?_, rfl, rfl, rfl, rfl⟩
    unfold create_schedules_from_request
    rw [if_neg (by simp [h1]), hday]
    exact if_pos (by simp [hocc])

/-- A concrete one-off request. -/
def sampleRequest : CreateScheduleRequest :=
  { schedule_type := "one-off", desiredCivil := 5000, day_of_week := "MON",
    timeHour := 10, timeMinute := 30, occurrences := 1, court_id := some "1",
    duration := 60 }

/-- Witness for `create_schedules_single_occurrence_pair` at a concrete
one-off request. -/
theorem create_schedules_single_occurrence_pair_witness :
    ∃ s1 s2, create_schedules_from_request (fixedZone 0) 0 sampleRequest
        = some [s1, s2] ∧
      s1.status = "pending" ∧ s2.status = "pending" ∧
      s1.desiredTime
        = { civil := sampleRequest.desiredCivil, tz := some (fixedZone 0) } ∧
      s2.desiredTime
        = { civil := sampleRequest.desiredCivil + 604800,
            tz := some (fixedZone 0) } :=
  (create_schedules_single_occurrence_pair (fixedZone 0) 0 sampleRequest).1 rfl

end TennisScheduler
